import Mathlib

/-!
Verification of the SMILES/IUPAC batch converter core (src/comapp.py).

The Python functions are embedded shallowly: network effects are passed in
explicitly as an environment value describing what each of the two PubChem
request steps returns, and a Python exception anywhere in a request or in
JSON decoding is an explicit constructor of that environment. Machine
strings are Lean `String`, Python str.strip and str.split are embedded as
executable functions on the character list, and Python lists are Lean
`List`.
-/

namespace Comapp

/-- Python str.strip over the character list: drop whitespace from both
ends. -/
def strip (l : List Char) : List Char :=
  (((l.dropWhile Char.isWhitespace).reverse).dropWhile Char.isWhitespace).reverse

/-- Python str.strip on strings. -/
def pyStrip (s : String) : String := ⟨strip s.data⟩

/-- Python str.split with a one-character separator: split on every
occurrence, keeping empty pieces, so the result is always nonempty. -/
def splitOnChar (sep : Char) : List Char → List (List Char)
  | [] => [[]]
  | c :: rest =>
    match splitOnChar sep rest with
    | [] => [[]]
    | piece :: pieces =>
      if c = sep then [] :: piece :: pieces else (c :: piece) :: pieces

/-- One per-item conversion result: the dict with keys input, output, error
that both single-item functions and the batch runner produce. -/
structure Outcome where
  input : String
  output : Option String
  error : Option String
deriving Repr, DecidableEq

/-- What one network request step looks like to the code: either the request
call itself raised (connectivity fault, timeout, and also a fault while
decoding the body, since decoding raises too), or a response arrived with a
status code and a decoded body. The body is `Except String α` because
`response.json()` is only called when the status is 200 and may itself raise
with some message; a structurally valid but shape-deviating body is already
folded into the `α` value by the dict-get chain with its defaults. -/
inductive NetResp (α : Type) where
  | exc (msg : String)
  | resp (code : Nat) (body : Except String α)
deriving Repr

/-- Environment of one lookup call. `step1` is the identifier request: its
body is the CID list read by the chain IdentifierList / CID with default [].
`step2`, given the CID chosen from step 1, is the property request: its body
is the Properties list read with default [], each entry reduced to the
requested property value (`none` when the key is missing). -/
structure LookupEnv where
  step1 : NetResp (List Nat)
  step2 : Nat → NetResp (List (Option String))

/-- Embedding of process_single_smiles_to_iupac (src/comapp.py lines 25-68).
The check `not smiles` in the source is subsumed by the emptiness test on the
stripped string; the final truthiness test on the property value covers both
a missing key and an empty string. -/
def process_single_smiles_to_iupac (env : LookupEnv) (smiles0 : String) : Outcome :=
  let smiles := pyStrip smiles0
  if smiles.data.isEmpty then
    { input := smiles, output := none, error := some "Empty SMILES string" }
  else
    match env.step1 with
    | NetResp.exc msg =>
        { input := smiles, output := none, error := some ("Error: " ++ msg) }
    | NetResp.resp code body =>
      if code ≠ 200 then
        { input := smiles, output := none,
          error := some ("API error: " ++ toString code) }
      else
        match body with
        | Except.error msg =>
            { input := smiles, output := none, error := some ("Error: " ++ msg) }
        | Except.ok cids =>
          match cids with
          | [] => { input := smiles, output := none, error := some "No compound found" }
          | cid :: _ =>
            match env.step2 cid with
            | NetResp.exc msg =>
                { input := smiles, output := none, error := some ("Error: " ++ msg) }
            | NetResp.resp code2 body2 =>
              if code2 ≠ 200 then
                { input := smiles, output := none,
                  error := some ("Failed to get IUPAC name: " ++ toString code2) }
              else
                match body2 with
                | Except.error msg =>
                    { input := smiles, output := none,
                      error := some ("Error: " ++ msg) }
                | Except.ok props =>
                  match props with
                  | [] =>
                      { input := smiles, output := none,
                        error := some "No properties found" }
                  | p :: _ =>
                    match p with
                    | none =>
                        { input := smiles, output := none,
                          error := some "IUPAC name not available" }
                    | some iupac_name =>
                      if iupac_name.isEmpty then
                        { input := smiles, output := none,
                          error := some "IUPAC name not available" }
                      else
                        { input := smiles, output := some iupac_name, error := none }

/-- Embedding of process_single_iupac_to_smiles (src/comapp.py lines 70-115).
Identical control flow to the other direction, with its own messages; the
URL-encoding step only builds the request URL and has no observable effect
here. -/
def process_single_iupac_to_smiles (env : LookupEnv) (iupac0 : String) : Outcome :=
  let iupac_name := pyStrip iupac0
  if iupac_name.data.isEmpty then
    { input := iupac_name, output := none, error := some "Empty IUPAC name" }
  else
    match env.step1 with
    | NetResp.exc msg =>
        { input := iupac_name, output := none, error := some ("Error: " ++ msg) }
    | NetResp.resp code body =>
      if code ≠ 200 then
        { input := iupac_name, output := none,
          error := some ("API error: " ++ toString code) }
      else
        match body with
        | Except.error msg =>
            { input := iupac_name, output := none, error := some ("Error: " ++ msg) }
        | Except.ok cids =>
          match cids with
          | [] =>
              { input := iupac_name, output := none,
                error := some "No compound found" }
          | cid :: _ =>
            match env.step2 cid with
            | NetResp.exc msg =>
                { input := iupac_name, output := none,
                  error := some ("Error: " ++ msg) }
            | NetResp.resp code2 body2 =>
              if code2 ≠ 200 then
                { input := iupac_name, output := none,
                  error := some ("Failed to get SMILES: " ++ toString code2) }
              else
                match body2 with
                | Except.error msg =>
                    { input := iupac_name, output := none,
                      error := some ("Error: " ++ msg) }
                | Except.ok props =>
                  match props with
                  | [] =>
                      { input := iupac_name, output := none,
                        error := some "No properties found" }
                  | p :: _ =>
                    match p with
                    | none =>
                        { input := iupac_name, output := none,
                          error := some "SMILES not available" }
                    | some smiles =>
                      if smiles.isEmpty then
                        { input := iupac_name, output := none,
                          error := some "SMILES not available" }
                      else
                        { input := iupac_name, output := some smiles, error := none }

/-- How one submitted job resolved by the time as_completed yields its
future: the worker ran the conversion function against some network
environment and future.result() returned its outcome, or the execution
itself raised and future.result() re-raised that fault with a message. -/
inductive JobFate (ε : Type) where
  | ran (env : ε)
  | raised (msg : String)

/-- Embedding of batch_convert (src/comapp.py lines 117-140). The executor
yields the submitted futures in an arbitrary completion order; that order is
taken here as the explicit list `completion` of (item, fate) pairs, assumed
by the theorems to be a permutation of the submitted jobs. A returned result
is appended as is; a raised fault becomes the Processing error outcome built
from the input item recovered from future_to_input. The per-completion sleep
has no observable effect on the returned list. -/
def batch_convert {ε : Type} (conversion_func : ε → String → Outcome)
    (completion : List (String × JobFate ε)) : List Outcome :=
  completion.map fun job =>
    match job.2 with
    | JobFate.ran env => conversion_func env job.1
    | JobFate.raised msg =>
        { input := job.1, output := none,
          error := some ("Processing error: " ++ msg) }

/-- The character class of the regex in validate_smiles:
A-Z, a-z, 0-9 and the listed punctuation. -/
def smilesAllowed (c : Char) : Bool :=
  c.isAlpha || c.isDigit ||
    (['@', '+', '-', '[', ']', '(', ')', '\\', '/', '%', '=', '#', '.'] : List Char).contains c

/-- The dollar anchor of a Python regex (without MULTILINE) matches at the
end of the string and also just before one newline that ends the string; the
character class cannot consume that newline. Matching the anchored pattern
therefore ignores exactly one final newline, which this helper removes. -/
def stripFinalNewline (l : List Char) : List Char :=
  if l.getLast? = some '\n' then l.dropLast else l

/-- Whether re.match of the anchored character-class pattern succeeds on s:
after discounting one final newline for the dollar anchor, the string must be
nonempty and consist of allowed characters only. -/
def smiles_pattern_holds (s : String) : Bool :=
  let t := stripFinalNewline s.data
  !t.isEmpty && t.all smilesAllowed

/-- Embedding of validate_smiles (src/comapp.py lines 167-174). The check
`not smiles` is subsumed by the length test. -/
def validate_smiles (smiles : String) : Bool :=
  if smiles.length < 2 then false
  else smiles_pattern_holds smiles

/-- Embedding of validate_iupac (src/comapp.py lines 176-182). The check
`not iupac_name` is subsumed by the length test; Python isalpha is modelled
as ASCII alphabetic. -/
def validate_iupac (iupac_name : String) : Bool :=
  if iupac_name.length < 3 then false
  else iupac_name.data.any Char.isAlpha

/-- The per-line branch of the validation loop in validate_input_list: the
smiles input type uses validate_smiles, anything else uses validate_iupac. -/
def validate_item (input_type : String) (line : String) : Bool :=
  if input_type == "smiles" then validate_smiles line else validate_iupac line

/-- The list comprehension opening validate_input_list: split on newlines,
strip each line, keep the nonempty ones. -/
def trimmedLines (input_text : String) : List String :=
  (((splitOnChar '\n' input_text.data).map strip).filter fun l => !l.isEmpty).map
    fun l => String.mk l

/-- Embedding of validate_input_list (src/comapp.py lines 142-165), returning
the Python pair (valid list or None, error message or None). -/
def validate_input_list (input_text : String) (input_type : String) :
    Option (List String) × Option String :=
  let lines := trimmedLines input_text
  if lines.isEmpty then (none, some "No valid input provided")
  else if lines.length > 100 then
    (none, some "Maximum 100 compounds per batch allowed")
  else
    let valid_lines := lines.filter (validate_item input_type)
    if valid_lines.isEmpty then (none, some "No valid inputs found")
    else (some valid_lines, none)

/-- Python truthiness of the optional string fields: None and the empty
string are falsy. -/
def truthy (o : Option String) : Bool :=
  match o with
  | none => false
  | some s => !s.isEmpty

/-- The expression `value or ""` applied to an optional string field: a falsy
value (None or the empty string) yields the empty string, so this is plain
defaulting. -/
def orEmpty (o : Option String) : String :=
  match o with
  | none => ""
  | some s => s

/-- One data row written by create_csv_output, identical in both branches. -/
def csv_row (result : Outcome) : List String :=
  [result.input, orEmpty result.output,
   if truthy result.output then "Success" else "Failed",
   orEmpty result.error]

/-- Embedding of create_csv_output (src/comapp.py lines 223-247) at the level
of rows: the header row chosen by the conversion type, then one row per
result in the order given. The serialisation of rows to CSV text is not
modelled. -/
def create_csv_output (results : List Outcome) (conversion_type : String) :
    List (List String) :=
  if conversion_type == "smiles_to_iupac" then
    ["SMILES", "IUPAC_Name", "Status", "Error"] :: results.map csv_row
  else
    ["IUPAC_Name", "SMILES", "Status", "Error"] :: results.map csv_row

/-- The statistics dict built in batch_convert_route (src/comapp.py lines
279-291). -/
structure BatchStatistics where
  total : Int
  successful : Int
  failed : Int
deriving Repr, DecidableEq

/-- The successful count: outcomes whose output is not None. -/
def count_successful (results : List Outcome) : Int :=
  ((results.filter fun r => r.output.isSome).length : Int)

/-- The statistics computation of batch_convert_route: total is the result
count, successful counts outcomes with populated output, failed is the
difference, over Python integers. -/
def batch_statistics (results : List Outcome) : BatchStatistics :=
  { total := (results.length : Int)
    successful := count_successful results
    failed := (results.length : Int) - count_successful results }

/-- Exactly one of the output and error fields is populated. -/
def exclusiveOutcome (o : Outcome) : Prop :=
  (o.output.isSome = true ∧ o.error = none) ∨
    (o.output = none ∧ o.error.isSome = true)

/-- Every return of process_single_smiles_to_iupac carries the stripped input
and populates exactly one of output and error: each path either sets output
to none and error to some message, or output to some value and error to
none. -/
theorem process_s2i_split (env : LookupEnv) (s : String) :
    (∃ e, process_single_smiles_to_iupac env s
        = { input := pyStrip s, output := none, error := some e }) ∨
    (∃ v, process_single_smiles_to_iupac env s
        = { input := pyStrip s, output := some v, error := none }) := by
  rcases env with ⟨s1, s2⟩
  simp only [process_single_smiles_to_iupac]
  by_cases h0 : (pyStrip s).data.isEmpty = true
  · rw [if_pos h0]
    exact Or.inl ⟨_, rfl⟩
  · rw [if_neg h0]
    rcases s1 with msg | ⟨code, body⟩
    · exact Or.inl ⟨_, rfl⟩
    · dsimp only
      by_cases hc : code = 200
      · subst hc
        rw [if_neg (fun h => h rfl)]
        rcases body with msg | cids
        · exact Or.inl ⟨_, rfl⟩
        · rcases cids with _ | ⟨cid, rest⟩
          · exact Or.inl ⟨_, rfl⟩
          · dsimp only
            rcases h2 : s2 cid with msg | ⟨code2, body2⟩
            · exact Or.inl ⟨_, rfl⟩
            · dsimp only
              by_cases hc2 : code2 = 200
              · subst hc2
                rw [if_neg (fun h => h rfl)]
                rcases body2 with msg | props
                · exact Or.inl ⟨_, rfl⟩
                · rcases props with _ | ⟨p, prest⟩
                  · exact Or.inl ⟨_, rfl⟩
                  · dsimp only
                    rcases p with _ | v
                    · exact Or.inl ⟨_, rfl⟩
                    · dsimp only
                      by_cases hv : v.isEmpty = true
                      · rw [if_pos hv]
                        exact Or.inl ⟨_, rfl⟩
                      · rw [if_neg hv]
                        exact Or.inr ⟨_, rfl⟩
              · rw [if_pos hc2]
                exact Or.inl ⟨_, rfl⟩
      · rw [if_pos hc]
        exact Or.inl ⟨_, rfl⟩

/-- Every return of process_single_iupac_to_smiles carries the stripped input
and populates exactly one of output and error. -/
theorem process_i2s_split (env : LookupEnv) (s : String) :
    (∃ e, process_single_iupac_to_smiles env s
        = { input := pyStrip s, output := none, error := some e }) ∨
    (∃ v, process_single_iupac_to_smiles env s
        = { input := pyStrip s, output := some v, error := none }) := by
  rcases env with ⟨s1, s2⟩
  simp only [process_single_iupac_to_smiles]
  by_cases h0 : (pyStrip s).data.isEmpty = true
  · rw [if_pos h0]
    exact Or.inl ⟨_, rfl⟩
  · rw [if_neg h0]
    rcases s1 with msg | ⟨code, body⟩
    · exact Or.inl ⟨_, rfl⟩
    · dsimp only
      by_cases hc : code = 200
      · subst hc
        rw [if_neg (fun h => h rfl)]
        rcases body with msg | cids
        · exact Or.inl ⟨_, rfl⟩
        · rcases cids with _ | ⟨cid, rest⟩
          · exact Or.inl ⟨_, rfl⟩
          · dsimp only
            rcases h2 : s2 cid with msg | ⟨code2, body2⟩
            · exact Or.inl ⟨_, rfl⟩
            · dsimp only
              by_cases hc2 : code2 = 200
              · subst hc2
                rw [if_neg (fun h => h rfl)]
                rcases body2 with msg | props
                · exact Or.inl ⟨_, rfl⟩
                · rcases props with _ | ⟨p, prest⟩
                  · exact Or.inl ⟨_, rfl⟩
                  · dsimp only
                    rcases p with _ | v
                    · exact Or.inl ⟨_, rfl⟩
                    · dsimp only
                      by_cases hv : v.isEmpty = true
                      · rw [if_pos hv]
                        exact Or.inl ⟨_, rfl⟩
                      · rw [if_neg hv]
                        exact Or.inr ⟨_, rfl⟩
              · rw [if_pos hc2]
                exact Or.inl ⟨_, rfl⟩
      · rw [if_pos hc]
        exact Or.inl ⟨_, rfl⟩

/-- Exclusivity for the structure-to-name direction. -/
theorem process_s2i_exclusive (env : LookupEnv) (s : String) :
    exclusiveOutcome (process_single_smiles_to_iupac env s) := by
  rcases process_s2i_split env s with ⟨e, he⟩ | ⟨v, hv⟩
  · rw [he]; exact Or.inr ⟨rfl, rfl⟩
  · rw [hv]; exact Or.inl ⟨rfl, rfl⟩

/-- Exclusivity for the name-to-structure direction. -/
theorem process_i2s_exclusive (env : LookupEnv) (s : String) :
    exclusiveOutcome (process_single_iupac_to_smiles env s) := by
  rcases process_i2s_split env s with ⟨e, he⟩ | ⟨v, hv⟩
  · rw [he]; exact Or.inr ⟨rfl, rfl⟩
  · rw [hv]; exact Or.inl ⟨rfl, rfl⟩

/-- The input field is always the stripped argument, structure-to-name. -/
theorem process_s2i_input (env : LookupEnv) (s : String) :
    (process_single_smiles_to_iupac env s).input = pyStrip s := by
  rcases process_s2i_split env s with ⟨e, he⟩ | ⟨v, hv⟩
  · rw [he]
  · rw [hv]

/-- The input field is always the stripped argument, name-to-structure. -/
theorem process_i2s_input (env : LookupEnv) (s : String) :
    (process_single_iupac_to_smiles env s).input = pyStrip s := by
  rcases process_i2s_split env s with ⟨e, he⟩ | ⟨v, hv⟩
  · rw [he]
  · rw [hv]

/-- A nonempty stripped string makes the emptiness guard false. -/
theorem stripNonempty_guard {s : String} (hs : pyStrip s ≠ "") :
    ¬((pyStrip s).data.isEmpty = true) := by
  intro hemp
  exact hs (by
    have : (pyStrip s).data = [] := by simpa using hemp
    exact String.ext this)

/-- C1: for every input list, the batch runner returns exactly one outcome
per submitted item, whatever completion order the executor yields and even
when individual worker executions raise: the outcome sequence has the same
length as the input list. -/
theorem batch_convert_length_invariant {ε : Type}
    (conversion_func : ε → String → Outcome)
    (input_list : List String) (fates : List (JobFate ε))
    (completion : List (String × JobFate ε))
    (hlen : fates.length = input_list.length)
    (hperm : completion.Perm (input_list.zip fates)) :
    (batch_convert conversion_func completion).length = input_list.length := by
  simp only [batch_convert, List.length_map, hperm.length_eq, List.length_zip,
    hlen, Nat.min_self]

/-- Witness for C1 at a concrete two-item batch in which one worker raised
and the other ran against an unreachable network. -/
theorem batch_convert_length_invariant_witness :
    (batch_convert (fun (e : LookupEnv) s => process_single_smiles_to_iupac e s)
      [("CCO", JobFate.ran { step1 := NetResp.exc "down", step2 := fun _ => NetResp.exc "down" }),
       ("CC(=O)O", JobFate.raised "boom")]).length = 2 :=
  batch_convert_length_invariant
    (fun (e : LookupEnv) s => process_single_smiles_to_iupac e s)
    ["CCO", "CC(=O)O"]
    [JobFate.ran { step1 := NetResp.exc "down", step2 := fun _ => NetResp.exc "down" },
     JobFate.raised "boom"]
    _ rfl (List.Perm.refl _)

/-- C2: both single-item lookup functions are total: for every environment,
including one in which either network step raises, they return an outcome in
which output or error is populated, and an unexpected fault at either step
is returned in the error field as the message prefixed by the word Error. -/
theorem lookup_never_raises :
    (∀ env s, (process_single_smiles_to_iupac env s).output.isSome = true
        ∨ (process_single_smiles_to_iupac env s).error.isSome = true) ∧
    (∀ env s, (process_single_iupac_to_smiles env s).output.isSome = true
        ∨ (process_single_iupac_to_smiles env s).error.isSome = true) ∧
    (∀ env s msg, pyStrip s ≠ "" → env.step1 = NetResp.exc msg →
        process_single_smiles_to_iupac env s
          = { input := pyStrip s, output := none, error := some ("Error: " ++ msg) }) ∧
    (∀ env s cid rest msg, pyStrip s ≠ "" →
        env.step1 = NetResp.resp 200 (Except.ok (cid :: rest)) →
        env.step2 cid = NetResp.exc msg →
        process_single_smiles_to_iupac env s
          = { input := pyStrip s, output := none, error := some ("Error: " ++ msg) }) ∧
    (∀ env s msg, pyStrip s ≠ "" → env.step1 = NetResp.exc msg →
        process_single_iupac_to_smiles env s
          = { input := pyStrip s, output := none, error := some ("Error: " ++ msg) }) ∧
    (∀ env s cid rest msg, pyStrip s ≠ "" →
        env.step1 = NetResp.resp 200 (Except.ok (cid :: rest)) →
        env.step2 cid = NetResp.exc msg →
        process_single_iupac_to_smiles env s
          = { input := pyStrip s, output := none, error := some ("Error: " ++ msg) }) := by
  refine ⟨?_, ?_, ?_, ?_, ?_, ?_⟩
  · intro env s
    rcases process_s2i_exclusive env s with ⟨h1, _⟩ | ⟨_, h2⟩
    · exact Or.inl h1
    · exact Or.inr h2
  · intro env s
    rcases process_i2s_exclusive env s with ⟨h1, _⟩ | ⟨_, h2⟩
    · exact Or.inl h1
    · exact Or.inr h2
  · intro env s msg hs h1
    simp only [process_single_smiles_to_iupac]
    rw [if_neg (stripNonempty_guard hs), h1]
  · intro env s cid rest msg hs h1 h2
    simp only [process_single_smiles_to_iupac]
    rw [if_neg (stripNonempty_guard hs), h1]
    dsimp only
    rw [if_neg (fun h => h rfl)]
    rw [h2]
  · intro env s msg hs h1
    simp only [process_single_iupac_to_smiles]
    rw [if_neg (stripNonempty_guard hs), h1]
  · intro env s cid rest msg hs h1 h2
    simp only [process_single_iupac_to_smiles]
    rw [if_neg (stripNonempty_guard hs), h1]
    dsimp only
    rw [if_neg (fun h => h rfl)]
    rw [h2]

/-- C3: every outcome of either lookup function, and every outcome of the
batch runner whenever the ran jobs produce exclusive outcomes (which by the
previous theorem they always do for the two lookup functions), populates
exactly one of output and error. -/
theorem outcome_exactly_one :
    (∀ env s, exclusiveOutcome (process_single_smiles_to_iupac env s)) ∧
    (∀ env s, exclusiveOutcome (process_single_iupac_to_smiles env s)) ∧
    (∀ (ε : Type) (f : ε → String → Outcome)
        (completion : List (String × JobFate ε)),
      (∀ job ∈ completion, ∀ e, job.2 = JobFate.ran e → exclusiveOutcome (f e job.1)) →
      ∀ o ∈ batch_convert f completion, exclusiveOutcome o) := by
  refine ⟨process_s2i_exclusive, process_i2s_exclusive, ?_⟩
  intro ε f completion hran o ho
  simp only [batch_convert, List.mem_map] at ho
  obtain ⟨job, hmem, rfl⟩ := ho
  rcases hfate : job.2 with e | msg
  · exact hran job hmem e hfate
  · exact Or.inr ⟨rfl, rfl⟩

/-- C7: the statistics computed by the batch route satisfy
successful + failed = total, total being the outcome count and successful
the count of outcomes with populated output. -/
theorem batch_statistics_sum (results : List Outcome) :
    (batch_statistics results).successful + (batch_statistics results).failed
      = (batch_statistics results).total ∧
    (batch_statistics results).total = (results.length : Int) ∧
    (batch_statistics results).successful
      = (((results.filter fun r => r.output.isSome).length : Nat) : Int) := by
  refine ⟨?_, rfl, rfl⟩
  simp only [batch_statistics, count_successful]
  omega

/-- C10: both lookup functions strip the item before anything else: the
outcome's input field is the stripped argument, and a whitespace-only or
empty item short-circuits to the direction's empty-input error, identically
for every network environment (no request is consulted). -/
theorem lookup_strips_input :
    (∀ env s, (process_single_smiles_to_iupac env s).input = pyStrip s) ∧
    (∀ env s, (process_single_iupac_to_smiles env s).input = pyStrip s) ∧
    (∀ env s, pyStrip s = "" →
      process_single_smiles_to_iupac env s
        = { input := "", output := none, error := some "Empty SMILES string" }) ∧
    (∀ env env2 s, pyStrip s = "" →
      process_single_smiles_to_iupac env s = process_single_smiles_to_iupac env2 s) ∧
    (∀ env s, pyStrip s = "" →
      process_single_iupac_to_smiles env s
        = { input := "", output := none, error := some "Empty IUPAC name" }) ∧
    (∀ env env2 s, pyStrip s = "" →
      process_single_iupac_to_smiles env s = process_single_iupac_to_smiles env2 s) := by
  have hs2i : ∀ env s, pyStrip s = "" →
      process_single_smiles_to_iupac env s
        = { input := "", output := none, error := some "Empty SMILES string" } := by
    intro env s h
    simp only [process_single_smiles_to_iupac]
    rw [if_pos (show (pyStrip s).data.isEmpty = true by rw [h]; rfl), h]
  have hi2s : ∀ env s, pyStrip s = "" →
      process_single_iupac_to_smiles env s
        = { input := "", output := none, error := some "Empty IUPAC name" } := by
    intro env s h
    simp only [process_single_iupac_to_smiles]
    rw [if_pos (show (pyStrip s).data.isEmpty = true by rw [h]; rfl), h]
  refine ⟨process_s2i_input, process_i2s_input, hs2i, ?_, hi2s, ?_⟩
  · intro env env2 s h
    rw [hs2i env s h, hs2i env2 s h]
  · intro env env2 s h
    rw [hi2s env s h, hi2s env2 s h]

/-- Membership survives discounting the final newline when the character is
not a newline: stripping removes at most one trailing newline. -/
theorem mem_stripFinalNewline_of_ne (l : List Char) (c : Char) (hc : c ∈ l)
    (hne : c ≠ '\n') : c ∈ stripFinalNewline l := by
  unfold stripFinalNewline
  by_cases h : l.getLast? = some '\n'
  · rw [if_pos h]
    rcases List.eq_nil_or_concat l with rfl | ⟨l2, b, rfl⟩
    · cases hc
    · have hb : b = '\n' := by simpa [List.getLast?_concat] using h
      subst hb
      simp only [List.concat_eq_append] at hc ⊢
      rw [List.dropLast_concat]
      rcases List.mem_append.mp hc with h1 | h1
      · exact h1
      · simp only [List.mem_singleton] at h1
        exact absurd h1 hne
  · rw [if_neg h]
    exact hc

/-- A disallowed character that survives the dollar-anchor newline discount
makes validate_smiles reject. -/
theorem validate_smiles_false_of_bad (s : String) (c : Char)
    (hc : c ∈ stripFinalNewline s.data) (hbad : smilesAllowed c = false) :
    validate_smiles s = false := by
  unfold validate_smiles
  by_cases hl : s.length < 2
  · rw [if_pos hl]
  · rw [if_neg hl]
    unfold smiles_pattern_holds
    have hall : (stripFinalNewline s.data).all smilesAllowed = false := by
      rw [List.all_eq_false]
      exact ⟨c, hc, by simp [hbad]⟩
    simp [hall]

/-- C5 counterexample: the string CC followed by a newline contains a
character outside the permitted alphabet, yet validate_smiles accepts it,
because the dollar anchor of the Python pattern also matches just before a
final newline. -/
theorem validate_smiles_newline_counterexample :
    validate_smiles "CC\n" = true ∧ '\n' ∈ ("CC\n").data ∧
      smilesAllowed '\n' = false := by decide

/-- C5 amended: validate_smiles rejects the empty string and every
single-character string, rejects every string containing a character outside
the alphabet other than a newline, and, newlines aside, rejects any string
whose character list still contains a newline after discounting one final
newline; it accepts CCO, and every string containing a star is rejected. -/
theorem validate_smiles_amended :
    validate_smiles "" = false ∧
    (∀ s : String, s.length < 2 → validate_smiles s = false) ∧
    (∀ (s : String) (c : Char), c ∈ s.data → smilesAllowed c = false → c ≠ '\n' →
      validate_smiles s = false) ∧
    (∀ (s : String) (c : Char), c ∈ stripFinalNewline s.data → smilesAllowed c = false →
      validate_smiles s = false) ∧
    validate_smiles "CCO" = true ∧
    (∀ s : String, '*' ∈ s.data → validate_smiles s = false) := by
  refine ⟨by decide, ?_, ?_, validate_smiles_false_of_bad, by decide, ?_⟩
  · intro s h
    unfold validate_smiles
    rw [if_pos h]
  · intro s c hc hbad hne
    exact validate_smiles_false_of_bad s c (mem_stripFinalNewline_of_ne _ c hc hne) hbad
  · intro s h
    exact validate_smiles_false_of_bad s '*'
      (mem_stripFinalNewline_of_ne _ '*' h (by decide)) (by decide)

/-- C6: validate_iupac returns false exactly when the string is shorter than
3 characters or contains no alphabetic character; it accepts ethanol and
rejects ab and 12345. -/
theorem validate_iupac_spec :
    (∀ s : String, validate_iupac s = false ↔
      (s.length < 3 ∨ ∀ c ∈ s.data, c.isAlpha = false)) ∧
    validate_iupac "ethanol" = true ∧
    validate_iupac "ab" = false ∧
    validate_iupac "12345" = false := by
  refine ⟨?_, by decide, by decide, by decide⟩
  intro s
  unfold validate_iupac
  by_cases h : s.length < 3
  · simp [h]
  · rw [if_neg h]
    simp [h, List.any_eq_false]

/-- C4: validate_input_list trims and drops blank lines, then fails on no
remaining lines, then fails when more than 100 lines remain (counted before
per-item filtering), then filters through the per-item validator, fails when
nothing passes, and otherwise returns the filtered lines, a sublist of the
trimmed lines in their original order. -/
theorem validate_input_list_spec (input_text input_type : String) :
    (trimmedLines input_text = [] →
      validate_input_list input_text input_type
        = (none, some "No valid input provided")) ∧
    ((trimmedLines input_text).length > 100 → trimmedLines input_text ≠ [] →
      validate_input_list input_text input_type
        = (none, some "Maximum 100 compounds per batch allowed")) ∧
    (trimmedLines input_text ≠ [] → (trimmedLines input_text).length ≤ 100 →
      ((trimmedLines input_text).filter (validate_item input_type) = [] →
        validate_input_list input_text input_type
          = (none, some "No valid inputs found")) ∧
      ((trimmedLines input_text).filter (validate_item input_type) ≠ [] →
        validate_input_list input_text input_type
          = (some ((trimmedLines input_text).filter (validate_item input_type)), none) ∧
        ((trimmedLines input_text).filter (validate_item input_type)).Sublist
          (trimmedLines input_text))) := by
  refine ⟨?_, ?_, ?_⟩
  · intro h
    simp only [validate_input_list]
    rw [if_pos (by rw [h]; rfl)]
  · intro h100 hne
    have hemp : ¬((trimmedLines input_text).isEmpty = true) := by
      simpa [List.isEmpty_iff] using hne
    simp only [validate_input_list]
    rw [if_neg hemp, if_pos h100]
  · intro hne h100
    have hemp : ¬((trimmedLines input_text).isEmpty = true) := by
      simpa [List.isEmpty_iff] using hne
    have hgt : ¬((trimmedLines input_text).length > 100) := Nat.not_lt.mpr h100
    constructor
    · intro hfil
      simp only [validate_input_list]
      rw [if_neg hemp, if_neg hgt, if_pos (by rw [hfil]; rfl)]
    · intro hfil
      have hfemp : ¬(((trimmedLines input_text).filter (validate_item input_type)).isEmpty
          = true) := by
        simpa [List.isEmpty_iff] using hfil
      constructor
      · simp only [validate_input_list]
        rw [if_neg hemp, if_neg hgt, if_neg hfemp]
      · exact List.filter_sublist _

/-- C8: create_csv_output emits the direction-dependent header then one row
per outcome in order; the Status cell is Success exactly when output is
present and nonempty and Failed otherwise; missing output and error render
as the empty string; and the two concrete example outcomes produce the rows
the spec lists. -/
theorem create_csv_output_spec :
    (∀ results : List Outcome,
      create_csv_output results "smiles_to_iupac"
        = ["SMILES", "IUPAC_Name", "Status", "Error"] :: results.map csv_row) ∧
    (∀ results : List Outcome,
      create_csv_output results "iupac_to_smiles"
        = ["IUPAC_Name", "SMILES", "Status", "Error"] :: results.map csv_row) ∧
    (∀ (r : Outcome) (v : String), r.output = some v → v ≠ "" →
      csv_row r = [r.input, v, "Success", orEmpty r.error]) ∧
    (∀ r : Outcome, r.output = none ∨ r.output = some "" →
      csv_row r = [r.input, orEmpty r.output, "Failed", orEmpty r.error]) ∧
    (∀ r : Outcome, r.output = none → orEmpty r.output = "") ∧
    (∀ r : Outcome, r.error = none → orEmpty r.error = "") ∧
    csv_row { input := "CCO", output := some "ethanol", error := none }
      = ["CCO", "ethanol", "Success", ""] ∧
    csv_row { input := "xyz", output := none, error := some "No compound found" }
      = ["xyz", "", "Failed", "No compound found"] := by
  refine ⟨?_, ?_, ?_, ?_, ?_, ?_, by decide, by decide⟩
  · intro results
    simp [create_csv_output]
  · intro results
    simp [create_csv_output]
  · intro r v hv hne
    have hvf : v.isEmpty = false := by
      rcases hb : v.isEmpty with _ | _
      · rfl
      · exact absurd (by simpa [String.isEmpty_iff] using hb) hne
    simp [csv_row, truthy, orEmpty, hv, hvf]
  · intro r hr
    rcases hr with h | h
    · simp [csv_row, truthy, orEmpty, h]
    · simp [csv_row, truthy, orEmpty, h]
      rfl
  · intro r h
    simp [orEmpty, h]
  · intro r h
    simp [orEmpty, h]

end Comapp
